import Mathlib

/-!
Verification of the Organization Lookup and Insights Engine
(`src/app.py`, `src/individual_search.py`).

The Python code is shallowly embedded: strings are processed as `List Char`
(Python compares and lowercases strings by code point; `Char.toLower` agrees
with `str.lower` on the ASCII data involved), Python `date` values become a
`Date` structure with the constructor validity check of `datetime.date`
modelled by `mkDate`, nullable columns become `Option`, `pandas` coercions
with `errors = coerce` become `Option`-valued parsers, and code that raises
becomes `Option`-valued (with `none` for a raised exception).

`difflib.SequenceMatcher.ratio` is embedded exactly for inputs below the
autojunk threshold (all strings here are far shorter than 200 characters,
where autojunk is inert): `findLongestMatch` returns the longest common
contiguous block, earliest in the first string and then in the second, and
`matchTotal` sums the recursive block decomposition, so the ratio is the
rational `2 * M / T`.  The float ratio of the source is represented as this
exact rational; the sort comparator cross-multiplies the two fractions, which
is proved equivalent to comparing the rationals.

Python `list.sort` and `sorted` are stable; they are embedded as
`List.insertionSort`, which is stable and sorts by the same comparator.
-/

set_option maxRecDepth 8000

namespace OrgDash

/-! ### Character and string helpers -/

/-- Whitespace test used by `str.strip`. -/
def isWS (c : Char) : Bool := c = ' ' || c = '\t' || c = '\n' || c = '\r'

/-- Model of Python `str.strip()` on the character list of a string. -/
def trimChars (s : List Char) : List Char :=
  ((s.dropWhile isWS).reverse.dropWhile isWS).reverse

/-- Model of Python `str.lower()` (code points here are ASCII). -/
def lowerChars (s : String) : List Char := s.data.map Char.toLower

/-- Lexicographic code-point comparison, the order Python uses on `str`. -/
def charListLe : List Char → List Char → Bool
  | [], _ => true
  | _ :: _, [] => false
  | x :: xs, y :: ys => if x.toNat = y.toNat then charListLe xs ys else decide (x.toNat < y.toNat)

/-- Python string order on `String`. -/
def pyStrLe (a b : String) : Bool := charListLe a.data b.data

/-- Does `s` begin with `nd`?  Used for the substring test. -/
def beginsWith : List Char → List Char → Bool
  | _, [] => true
  | [], _ :: _ => false
  | x :: xs, y :: ys => x = y && beginsWith xs ys

/-- Substring containment, the client-side meaning of the `ilike` pattern
with a percent sign on both ends. -/
def containsSub (hay nd : List Char) : Bool :=
  (List.range (hay.length + 1)).any (fun i => beginsWith (hay.drop i) nd)

/-- Value of a nonempty all-digit string. -/
def digitsVal (cs : List Char) : Option Nat :=
  if cs.isEmpty then none
  else if cs.all Char.isDigit then
    some (cs.foldl (fun a c => a * 10 + (c.toNat - 48)) 0)
  else none

/-- Model of Python `int(s)` on an already stripped string: an optional
sign followed by digits (underscore separators are not modelled; no claim
involves them). -/
def pyInt (s : List Char) : Option Int :=
  match s with
  | '-' :: rest => (digitsVal rest).map (fun n => -(n : Int))
  | '+' :: rest => (digitsVal rest).map (fun n => (n : Int))
  | _ => (digitsVal s).map (fun n => (n : Int))

/-- Embedding of `is_int` from the source: whether `int(s)` succeeds. -/
def is_int (s : List Char) : Bool := (pyInt s).isSome

/-! ### SequenceMatcher -/

/-- Length of the common run of two lists starting at their heads. -/
def commonRun : List Char → List Char → Nat
  | x :: xs, y :: ys => if x = y then commonRun xs ys + 1 else 0
  | _, _ => 0

/-- All candidate blocks `(i, j, size of the run starting at i and j)`,
enumerated with `i` outermost, as `find_longest_match` scans them. -/
def flmCand (a b : List Char) : List (Nat × Nat × Nat) :=
  (List.range a.length).flatMap
    (fun i => (List.range b.length).map (fun j => (i, j, commonRun (a.drop i) (b.drop j))))

/-- Embedding of `SequenceMatcher.find_longest_match` without junk (autojunk
is inert below 200 characters): the longest common block, earliest in `a`
and then earliest in `b` among blocks of maximal size. -/
def findLongestMatch (a b : List Char) : Nat × Nat × Nat :=
  (flmCand a b).foldl (fun best c => if c.2.2 > best.2.2 then c else best) (0, 0, 0)

/-- Total size of all matching blocks: the recursive decomposition of
`get_matching_blocks`.  The fuel starts above the list length and never
runs out, because each recursive call is on a strictly shorter first list. -/
def matchTotalFuel : Nat → List Char → List Char → Nat
  | 0, _, _ => 0
  | fuel + 1, a, b =>
    let best := findLongestMatch a b
    if best.2.2 = 0 then 0
    else
      matchTotalFuel fuel (a.take best.1) (b.take best.2.1) + best.2.2 +
        matchTotalFuel fuel (a.drop (best.1 + best.2.2)) (b.drop (best.2.1 + best.2.2))

/-- `M`, the total number of matched characters of `SequenceMatcher`. -/
def matchTotal (a b : List Char) : Nat := matchTotalFuel (a.length + 1) a b

/-- Numerator of `ratio` as an exact fraction (`_calculate_ratio` returns
`1.0` when both strings are empty). -/
def ratioNum (a b : List Char) : Nat :=
  if a.length + b.length = 0 then 1 else 2 * matchTotal a b

/-- Denominator of `ratio` as an exact fraction. -/
def ratioDen (a b : List Char) : Nat :=
  if a.length + b.length = 0 then 1 else a.length + b.length

/-- Embedding of `similarity` from the source: the `SequenceMatcher.ratio`
of the two lowercased strings, as an exact rational. -/
def similarity (x y : String) : ℚ :=
  (ratioNum (lowerChars x) (lowerChars y) : ℚ) / (ratioDen (lowerChars x) (lowerChars y) : ℚ)

/-! ### Organizations and candidate search -/

/-- A row of the `orgs` table. -/
structure Org where
  organization_id : Int
  organization_name : Option String
  org_city : Option String
  org_state : Option String
deriving DecidableEq

/-- The sort key of `fetch_org_candidates` is the ascending pair
`(-similarity query name, length name)`, so the comparator holds when the
first candidate has larger similarity, or equal similarity and a name no
longer.  The two ratios are compared by cross-multiplication, which agrees
with the rational comparison because both denominators are positive. -/
def rankKeyLe (q : String) (o1 o2 : Org) : Bool :=
  let a := lowerChars q
  let n1 := o1.organization_name.getD ""
  let n2 := o2.organization_name.getD ""
  let b1 := lowerChars n1
  let b2 := lowerChars n2
  decide (ratioNum a b2 * ratioDen a b1 < ratioNum a b1 * ratioDen a b2)
    || (decide (ratioNum a b1 * ratioDen a b2 = ratioNum a b2 * ratioDen a b1)
        && decide (n1.length ≤ n2.length))

/-- The ranking order stated over the exact rational similarity: strictly
more similar first, ties by ascending name length. -/
def rankRel (q : String) (o1 o2 : Org) : Prop :=
  similarity q (o2.organization_name.getD "") < similarity q (o1.organization_name.getD "")
  ∨ (similarity q (o1.organization_name.getD "") = similarity q (o2.organization_name.getD "")
      ∧ (o1.organization_name.getD "").length ≤ (o2.organization_name.getD "").length)

/-- The stable sort of the fuzzy branch (`rows.sort(key=...)`). -/
def rankCandidates (q : String) (rows : List Org) : List Org :=
  List.insertionSort (fun o1 o2 => rankKeyLe q o1 o2 = true) rows

/-- The two ranking keys of a candidate: its similarity to the query and
its name length. -/
def simKey (q : String) (o : Org) : ℚ × Nat :=
  (similarity q (o.organization_name.getD ""), (o.organization_name.getD "").length)

/-- The `ilike` substring match on the organization name (case-insensitive;
a null name matches nothing). -/
def nameMatches (q : List Char) (o : Org) : Bool :=
  match o.organization_name with
  | some n => containsSub (lowerChars n) (q.map Char.toLower)
  | none => false

/-- Embedding of `fetch_org_candidates`.  The backing store is passed as the
list of `orgs` rows in store-returned order; the `eq` and `ilike ... limit 200`
queries become a filter, and a take of 200, over that list. -/
def fetch_org_candidates (query : String) (store : List Org) : List Org :=
  let q := trimChars query.data
  if q.isEmpty then []
  else if is_int q then
    store.filter (fun o => o.organization_id == (pyInt q).getD 0)
  else
    rankCandidates ⟨q⟩ ((store.filter (fun o => nameMatches q o)).take 200)

/-! ### Dates -/

/-- A calendar date as `datetime.date` holds it. -/
structure Date where
  year : Nat
  month : Nat
  day : Nat
deriving DecidableEq

/-- The Gregorian leap-year rule of `datetime`. -/
def isLeapYear (y : Nat) : Bool := (y % 4 = 0 && y % 100 ≠ 0) || (y % 400 = 0)

/-- Days in a month of a given year. -/
def daysInMonth (y m : Nat) : Nat :=
  if m = 2 then (if isLeapYear y then 29 else 28)
  else if m = 4 ∨ m = 6 ∨ m = 9 ∨ m = 11 then 30
  else 31

/-- The `datetime.date` constructor: `none` models the `ValueError` raised
on an invalid calendar combination. -/
def mkDate (y m d : Nat) : Option Date :=
  if 1 ≤ m ∧ m ≤ 12 ∧ 1 ≤ d ∧ d ≤ daysInMonth y m then some ⟨y, m, d⟩ else none

/-- Date comparison, lexicographic as in `datetime.date`. -/
def dateLe (a b : Date) : Bool :=
  a.year < b.year
    || (a.year = b.year && (a.month < b.month || (a.month = b.month && a.day ≤ b.day)))

/-! ### Registration requests, facets and the insights pipeline -/

/-- A row of the `requests` table, restricted to the fields the verified
logic reads.  `start_date_calendar_year` is kept as fetched (a nullable
string); `date_requested` is kept after the `pd.to_datetime` coercion, with
`none` for null or unparseable input. -/
structure Req where
  start_date_calendar_year : Option String
  date_requested : Option Date
  registration_status : Option String
  event_name : Option String
deriving DecidableEq

/-- The `pd.to_numeric(..., errors = coerce)` coercion of the calendar-year
column: numeric text parses, anything else becomes the missing sentinel. -/
def coercedYear (r : Req) : Option Int :=
  r.start_date_calendar_year.bind (fun s => pyInt (trimChars s.data))

/-- Helper for `uniqueFirst`: drop every value already seen. -/
def uniqueFirstAux (seen : List String) : List String → List String
  | [] => []
  | x :: xs => if x ∈ seen then uniqueFirstAux seen xs
    else x :: uniqueFirstAux (x :: seen) xs

/-- Distinct values in order of first occurrence, as `Series.unique`. -/
def uniqueFirst (l : List String) : List String := uniqueFirstAux [] l

/-- Embedding of `with_all`: drop empty and literal nan entries, sort
ascending, and put the wildcard in front.  Null entries were already removed
by `dropna` upstream. -/
def with_all (options : List String) : List String :=
  "All" :: List.insertionSort (fun a b => pyStrLe a b = true)
    (options.filter (fun o => !(o == "" || o == "nan")))

/-- The option list of one facet: `with_all(df[col].dropna().unique())`. -/
def facetOptions (vals : List (Option String)) : List String :=
  with_all (uniqueFirst (vals.filterMap id))

/-- Embedding of `apply_dropdown_filters`: each facet other than the
wildcard keeps only rows equal to the chosen value. -/
def apply_dropdown_filters (d : List Req) (status_choice event_choice : String) : List Req :=
  let out := if status_choice = "All" then d
    else d.filter (fun r => r.registration_status == some status_choice)
  if event_choice = "All" then out
  else out.filter (fun r => r.event_name == some event_choice)

/-- The year-to-date row test: a non-null request date at or before the
cutoff (`notna` and `<=` on the date column). -/
def ytdPred (cut : Date) (r : Req) : Bool :=
  match r.date_requested with
  | some d => dateLe d cut
  | none => false

/-- What `render_org_insights` computes for the caller: the facet option
lists, the filtered view shown in the All tab, the two year partitions, the
two year-to-date subsets, the two deltas and the prior-year cutoff. -/
structure Insights where
  statusOptions : List String
  eventOptions : List String
  filtered : List Req
  df2025 : List Req
  df2026 : List Req
  ytd2025 : List Req
  ytd2026 : List Req
  yoyDelta : Int
  ytdDelta : Int
  cutoff2025 : Date
deriving DecidableEq

/-- Embedding of the insight computation of `render_org_insights`
(`src/app.py`).  `none` models the page stopping with no metrics: on an
empty request set (`st.stop`), or the `ValueError` raised by
`date(2025, today.month, today.day)`.  Facet option lists are computed from
the unfiltered rows, before `apply_dropdown_filters` runs. -/
def render_org_insights (reqs : List Req) (status_choice event_choice : String)
    (today : Date) : Option Insights :=
  if reqs.isEmpty then none
  else
    let statusOptions := facetOptions (reqs.map Req.registration_status)
    let eventOptions := facetOptions (reqs.map Req.event_name)
    let df := apply_dropdown_filters reqs status_choice event_choice
    let df25 := df.filter (fun r => coercedYear r == some 2025)
    let df26 := df.filter (fun r => coercedYear r == some 2026)
    match mkDate 2025 today.month today.day with
    | none => none
    | some cut =>
      let ytd25 := df25.filter (ytdPred cut)
      let ytd26 := df26.filter (ytdPred today)
      some ⟨statusOptions, eventOptions, df, df25, df26, ytd25, ytd26,
        (df26.length : Int) - (df25.length : Int),
        (ytd26.length : Int) - (ytd25.length : Int), cut⟩

/-! ### Pagination -/

/-- The values the module-level pagination block computes. -/
structure PageResult (α : Type) where
  page : List α
  pageIndex : Nat
  totalPages : Nat
  startOffset : Nat
  endOffset : Nat
deriving DecidableEq

/-- Embedding of the pagination block of `src/individual_search.py`
(`PAGE_SIZE` is 10 there; the page size is a parameter here as the spec
states it).  The requested page is an arbitrary integer and is clamped. -/
def paginate {α : Type} (items : List α) (pageSize : Nat) (requested : Int) : PageResult α :=
  let total := items.length
  let totalPages := max 1 ((total + pageSize - 1) / pageSize)
  let pg := (max 0 (min requested ((totalPages : Int) - 1))).toNat
  let start := pg * pageSize
  let en := min (start + pageSize) total
  ⟨(items.drop start).take (en - start), pg, totalPages, start, en⟩

/-! ### The facet option list in the words of the spec -/

/-- The option list as the spec sentence of C7 states it, for comparison
with `facetOptions`: the distinct non-null, non-empty values, sorted
ascending, with the wildcard prepended.  (It does not drop the literal
string nan, which the source does.) -/
def specFacetOptions (vals : List (Option String)) : List String :=
  "All" :: List.insertionSort (fun a b => pyStrLe a b = true)
    ((uniqueFirst (vals.filterMap id)).filter (fun o => !(o == "")))

/-! ### Concrete data used by the witnesses and counterexamples -/

/-- Scenario request, year 2025, requested 2025-03-01. -/
def reqA : Req := ⟨some "2025", some ⟨2025, 3, 1⟩, none, none⟩

/-- Scenario request, year 2025, requested 2025-08-01. -/
def reqB : Req := ⟨some "2025", some ⟨2025, 8, 1⟩, none, none⟩

/-- Scenario request, year 2026, requested 2026-03-01. -/
def reqC : Req := ⟨some "2026", some ⟨2026, 3, 1⟩, none, none⟩

/-- The request list of the end-to-end scenario. -/
def exampleReqs : List Req := [reqA, reqB, reqC]

/-- The insight record the scenario should produce. -/
def exampleInsights : Insights :=
  ⟨["All"], ["All"], exampleReqs, [reqA, reqB], [reqC], [reqA], [reqC], -1, 0, ⟨2025, 3, 15⟩⟩

/-- A candidate with the longer name. -/
def canesBB : Org := ⟨101, some "Canes Baseball", none, none⟩

/-- A candidate whose name equals the query. -/
def canesOrg : Org := ⟨102, some "Canes", none, none⟩

/-- The candidate set of the ranking-stability scenario. -/
def canesStore : List Org := [canesBB, canesOrg]

/-- A store for the identifier-lookup scenario. -/
def idStore : List Org := [⟨78598, some "Alpha", none, none⟩, ⟨2, some "Beta", none, none⟩]

/-- Two distinct organizations with the same name, so the two ranking keys
tie. -/
def dupA : Org := ⟨1, some "Canes", none, none⟩

/-- See `dupA`. -/
def dupB : Org := ⟨2, some "Canes", none, none⟩

/-- A request whose calendar-year field does not parse as a number. -/
def reqBadYear : Req := ⟨some "20x5", some ⟨2025, 3, 1⟩, some "pending", none⟩

/-- A request whose registration status and event name are both the literal
wildcard string. -/
def reqStatusAll : Req := ⟨some "2025", none, some "All", some "All"⟩

/-- A request whose registration status is the literal string nan. -/
def reqStatusNan : Req := ⟨some "2025", none, some "nan", none⟩

/-- The insight record produced for the batch `[reqStatusNan]`. -/
def nanInsights : Insights :=
  ⟨["All"], ["All"], [reqStatusNan], [reqStatusNan], [], [], [], -1, 0, ⟨2025, 3, 15⟩⟩

/-! ### Lexicographic string order: totality and transitivity -/

theorem charListLe_total : ∀ a b : List Char, charListLe a b = true ∨ charListLe b a = true := by
  intro a
  induction a with
  | nil => intro b; left; rfl
  | cons x xs ih =>
    intro b
    cases b with
    | nil => right; rfl
    | cons y ys =>
      by_cases h : x.toNat = y.toNat
      · have h2 : y.toNat = x.toNat := h.symm
        simp only [charListLe, if_pos h, if_pos h2]
        exact ih ys
      · simp only [charListLe, if_neg h, if_neg (Ne.symm h), decide_eq_true_eq]
        omega

theorem charListLe_trans :
    ∀ a b c : List Char, charListLe a b = true → charListLe b c = true →
      charListLe a c = true := by
  intro a
  induction a with
  | nil => intro b c _ _; rfl
  | cons x xs ih =>
    intro b c hab hbc
    cases b with
    | nil => simp [charListLe] at hab
    | cons y ys =>
      cases c with
      | nil => simp [charListLe] at hbc
      | cons z zs =>
        by_cases h1 : x.toNat = y.toNat <;> by_cases h2 : y.toNat = z.toNat
        · simp only [charListLe, if_pos h1] at hab
          simp only [charListLe, if_pos h2] at hbc
          simpa [charListLe, h1.trans h2] using ih ys zs hab hbc
        · simp only [charListLe, if_pos h1] at hab
          simp only [charListLe, if_neg h2, decide_eq_true_eq] at hbc
          have hxz : x.toNat < z.toNat := by omega
          simp [charListLe, Nat.ne_of_lt hxz, hxz]
        · simp only [charListLe, if_neg h1, decide_eq_true_eq] at hab
          simp only [charListLe, if_pos h2] at hbc
          have hxz : x.toNat < z.toNat := by omega
          simp [charListLe, Nat.ne_of_lt hxz, hxz]
        · simp only [charListLe, if_neg h1, decide_eq_true_eq] at hab
          simp only [charListLe, if_neg h2, decide_eq_true_eq] at hbc
          have hxz : x.toNat < z.toNat := by omega
          simp [charListLe, Nat.ne_of_lt hxz, hxz]

theorem pyStrLe_total (a b : String) : pyStrLe a b = true ∨ pyStrLe b a = true :=
  charListLe_total a.data b.data

theorem pyStrLe_trans (a b c : String) :
    pyStrLe a b = true → pyStrLe b c = true → pyStrLe a c = true :=
  charListLe_trans a.data b.data c.data

/-! ### The similarity comparator agrees with the rational order -/

theorem ratioDen_pos (a b : List Char) : 0 < ratioDen a b := by
  unfold ratioDen
  split <;> omega

theorem sim_lt_iff (q n1 n2 : String) :
    similarity q n1 < similarity q n2 ↔
      ratioNum (lowerChars q) (lowerChars n1) * ratioDen (lowerChars q) (lowerChars n2)
        < ratioNum (lowerChars q) (lowerChars n2) * ratioDen (lowerChars q) (lowerChars n1) := by
  unfold similarity
  rw [div_lt_div_iff₀ (by exact_mod_cast ratioDen_pos (lowerChars q) (lowerChars n1))
      (by exact_mod_cast ratioDen_pos (lowerChars q) (lowerChars n2))]
  exact_mod_cast Iff.rfl

theorem sim_eq_iff (q n1 n2 : String) :
    similarity q n1 = similarity q n2 ↔
      ratioNum (lowerChars q) (lowerChars n1) * ratioDen (lowerChars q) (lowerChars n2)
        = ratioNum (lowerChars q) (lowerChars n2) * ratioDen (lowerChars q) (lowerChars n1) := by
  unfold similarity
  rw [div_eq_div_iff
      (by exact_mod_cast Nat.pos_iff_ne_zero.mp (ratioDen_pos (lowerChars q) (lowerChars n1)))
      (by exact_mod_cast Nat.pos_iff_ne_zero.mp (ratioDen_pos (lowerChars q) (lowerChars n2)))]
  exact_mod_cast Iff.rfl

theorem rankKeyLe_iff (q : String) (o1 o2 : Org) :
    rankKeyLe q o1 o2 = true ↔ rankRel q o1 o2 := by
  unfold rankKeyLe rankRel
  simp only [Bool.or_eq_true, Bool.and_eq_true, decide_eq_true_eq]
  rw [← sim_lt_iff q (o2.organization_name.getD "") (o1.organization_name.getD ""),
    ← sim_eq_iff q (o1.organization_name.getD "") (o2.organization_name.getD "")]

theorem rankRel_total (q : String) (o1 o2 : Org) : rankRel q o1 o2 ∨ rankRel q o2 o1 := by
  unfold rankRel
  rcases lt_trichotomy (similarity q (o1.organization_name.getD ""))
      (similarity q (o2.organization_name.getD "")) with h | h | h
  · right; left; exact h
  · rcases Nat.le_total (o1.organization_name.getD "").length
        (o2.organization_name.getD "").length with hl | hl
    · left; right; exact ⟨h, hl⟩
    · right; right; exact ⟨h.symm, hl⟩
  · left; left; exact h

theorem rankRel_trans (q : String) (o1 o2 o3 : Org) :
    rankRel q o1 o2 → rankRel q o2 o3 → rankRel q o1 o3 := by
  unfold rankRel
  rintro (h12 | ⟨he12, hl12⟩) <;> rintro (h23 | ⟨he23, hl23⟩)
  · left; exact h23.trans h12
  · left; rw [← he23]; exact h12
  · left; rw [he12]; exact h23
  · right; exact ⟨he12.trans he23, hl12.trans hl23⟩

theorem rankKeyLe_total (q : String) (o1 o2 : Org) :
    rankKeyLe q o1 o2 = true ∨ rankKeyLe q o2 o1 = true := by
  rw [rankKeyLe_iff, rankKeyLe_iff]
  exact rankRel_total q o1 o2

theorem rankKeyLe_trans (q : String) (o1 o2 o3 : Org) :
    rankKeyLe q o1 o2 = true → rankKeyLe q o2 o3 = true → rankKeyLe q o1 o3 = true := by
  rw [rankKeyLe_iff, rankKeyLe_iff, rankKeyLe_iff]
  exact rankRel_trans q o1 o2 o3

theorem rankCandidates_perm (q : String) (l : List Org) : (rankCandidates q l).Perm l :=
  List.perm_insertionSort _ l

theorem rankCandidates_pairwise (q : String) (l : List Org) :
    (rankCandidates q l).Pairwise (rankRel q) := by
  have hs : (rankCandidates q l).Pairwise (fun o1 o2 => rankKeyLe q o1 o2 = true) :=
    @List.sorted_insertionSort Org (fun o1 o2 => rankKeyLe q o1 o2 = true) _
      ⟨rankKeyLe_total q⟩ ⟨rankKeyLe_trans q⟩ l
  exact hs.imp (fun h => (rankKeyLe_iff q _ _).1 h)

/-! ### Bounds on the SequenceMatcher total match count -/

theorem commonRun_le_left : ∀ a b : List Char, commonRun a b ≤ a.length := by
  intro a
  induction a with
  | nil => intro b; cases b <;> simp [commonRun]
  | cons x xs ih =>
    intro b
    cases b with
    | nil => simp [commonRun]
    | cons y ys =>
      by_cases h : x = y
      · simp only [commonRun, if_pos h, List.length_cons]
        exact Nat.succ_le_succ (ih ys)
      · simp [commonRun, h]

theorem commonRun_le_right : ∀ a b : List Char, commonRun a b ≤ b.length := by
  intro a
  induction a with
  | nil => intro b; cases b <;> simp [commonRun]
  | cons x xs ih =>
    intro b
    cases b with
    | nil => simp [commonRun]
    | cons y ys =>
      by_cases h : x = y
      · simp only [commonRun, if_pos h, List.length_cons]
        exact Nat.succ_le_succ (ih ys)
      · simp [commonRun, h]

theorem foldl_best_mem :
    ∀ (l : List (Nat × Nat × Nat)) (init : Nat × Nat × Nat),
      l.foldl (fun best c => if c.2.2 > best.2.2 then c else best) init = init
      ∨ l.foldl (fun best c => if c.2.2 > best.2.2 then c else best) init ∈ l := by
  intro l
  induction l with
  | nil => intro init; left; rfl
  | cons c0 rest ih =>
    intro init
    rw [List.foldl_cons]
    rcases ih (if c0.2.2 > init.2.2 then c0 else init) with h | h
    · rw [h]
      split
      · right; exact List.mem_cons_self _ _
      · left; rfl
    · right; exact List.mem_cons_of_mem _ h

theorem mem_flmCand {a b : List Char} {c : Nat × Nat × Nat} (h : c ∈ flmCand a b) :
    c.2.2 = commonRun (a.drop c.1) (b.drop c.2.1) := by
  unfold flmCand at h
  rw [List.mem_flatMap] at h
  obtain ⟨i, _, h⟩ := h
  rw [List.mem_map] at h
  obtain ⟨j, _, rfl⟩ := h
  rfl

theorem flm_size_le (a b : List Char) :
    (findLongestMatch a b).2.2 ≤ a.length - (findLongestMatch a b).1
    ∧ (findLongestMatch a b).2.2 ≤ b.length - (findLongestMatch a b).2.1 := by
  rcases foldl_best_mem (flmCand a b) (0, 0, 0) with h | h
  · have he : findLongestMatch a b = (0, 0, 0) := h
    rw [he]
    exact ⟨Nat.zero_le _, Nat.zero_le _⟩
  · have hm : findLongestMatch a b ∈ flmCand a b := h
    have hc := mem_flmCand hm
    refine ⟨?_, ?_⟩
    · rw [hc, ← List.length_drop]
      exact commonRun_le_left _ _
    · rw [hc, ← List.length_drop]
      exact commonRun_le_right _ _

theorem matchTotalFuel_le :
    ∀ (fuel : Nat) (a b : List Char), matchTotalFuel fuel a b ≤ min a.length b.length := by
  intro fuel
  induction fuel with
  | zero => intro a b; simp [matchTotalFuel]
  | succ n ih =>
    intro a b
    simp only [matchTotalFuel]
    split
    · exact Nat.zero_le _
    · have h1 := ih (a.take (findLongestMatch a b).1) (b.take (findLongestMatch a b).2.1)
      have h2 := ih (a.drop ((findLongestMatch a b).1 + (findLongestMatch a b).2.2))
        (b.drop ((findLongestMatch a b).2.1 + (findLongestMatch a b).2.2))
      have h3 := flm_size_le a b
      rw [List.length_take, List.length_take] at h1
      rw [List.length_drop, List.length_drop] at h2
      omega

theorem matchTotal_le (a b : List Char) : matchTotal a b ≤ min a.length b.length :=
  matchTotalFuel_le _ a b

theorem ratioNum_le_ratioDen (a b : List Char) : ratioNum a b ≤ ratioDen a b := by
  have h : matchTotal a b ≤ min a.length b.length := matchTotal_le a b
  unfold ratioNum ratioDen
  split
  · exact le_refl 1
  · omega

theorem similarity_nonneg (x y : String) : 0 ≤ similarity x y := by
  unfold similarity
  positivity

theorem similarity_le_one (x y : String) : similarity x y ≤ 1 := by
  unfold similarity
  rw [div_le_one (by exact_mod_cast ratioDen_pos (lowerChars x) (lowerChars y))]
  exact_mod_cast ratioNum_le_ratioDen (lowerChars x) (lowerChars y)

theorem commonRun_self : ∀ a : List Char, commonRun a a = a.length := by
  intro a
  induction a with
  | nil => rfl
  | cons x xs ih => simp [commonRun, ih]

theorem foldl_best_k_ge_init :
    ∀ (l : List (Nat × Nat × Nat)) (init : Nat × Nat × Nat),
      init.2.2 ≤ (l.foldl (fun best c => if c.2.2 > best.2.2 then c else best) init).2.2 := by
  intro l
  induction l with
  | nil => intro init; exact le_refl _
  | cons c0 rest ih =>
    intro init
    rw [List.foldl_cons]
    refine le_trans ?_ (ih _)
    split
    · omega
    · exact le_refl _

theorem foldl_best_k_ge_mem :
    ∀ (l : List (Nat × Nat × Nat)) (init c : Nat × Nat × Nat), c ∈ l →
      c.2.2 ≤ (l.foldl (fun best c => if c.2.2 > best.2.2 then c else best) init).2.2 := by
  intro l
  induction l with
  | nil => intro init c hc; cases hc
  | cons c0 rest ih =>
    intro init c hc
    rw [List.foldl_cons]
    rcases List.mem_cons.1 hc with rfl | hc
    · refine le_trans ?_ (foldl_best_k_ge_init rest _)
      split
      · exact le_refl _
      · omega
    · exact ih _ c hc

theorem self_mem_flmCand {a : List Char} (h : a ≠ []) : (0, 0, a.length) ∈ flmCand a a := by
  have hl : 0 < a.length := List.length_pos.2 h
  unfold flmCand
  rw [List.mem_flatMap]
  refine ⟨0, List.mem_range.2 hl, ?_⟩
  rw [List.mem_map]
  refine ⟨0, List.mem_range.2 hl, ?_⟩
  simp [commonRun_self]

theorem flm_self {a : List Char} (h : a ≠ []) : findLongestMatch a a = (0, 0, a.length) := by
  have hl : 0 < a.length := List.length_pos.2 h
  have hk : (findLongestMatch a a).2.2 = a.length := by
    have hub := flm_size_le a a
    have hlb : a.length ≤ (findLongestMatch a a).2.2 :=
      foldl_best_k_ge_mem (flmCand a a) (0, 0, 0) _ (self_mem_flmCand h)
    omega
  have hij : (findLongestMatch a a).1 = 0 ∧ (findLongestMatch a a).2.1 = 0 := by
    have hub := flm_size_le a a
    omega
  have : findLongestMatch a a
      = ((findLongestMatch a a).1, (findLongestMatch a a).2.1, (findLongestMatch a a).2.2) := rfl
  rw [this, hij.1, hij.2, hk]

theorem matchTotalFuel_nil_left : ∀ (fuel : Nat) (b : List Char),
    matchTotalFuel fuel [] b = 0 := by
  intro fuel b
  cases fuel with
  | zero => rfl
  | succ n => simp [matchTotalFuel, findLongestMatch, flmCand]

theorem matchTotal_self (a : List Char) : matchTotal a a = a.length := by
  by_cases h : a = []
  · subst h; rfl
  · unfold matchTotal
    have hl : 0 < a.length := List.length_pos.2 h
    simp only [matchTotalFuel, flm_self h]
    rw [if_neg (by omega)]
    simp [matchTotalFuel_nil_left]

theorem similarity_of_lower_eq {x y : String} (h : lowerChars x = lowerChars y) :
    similarity x y = 1 := by
  unfold similarity
  rw [← h]
  unfold ratioNum ratioDen
  by_cases h0 : (lowerChars x).length + (lowerChars x).length = 0
  · rw [if_pos h0, if_pos h0]
    norm_num
  · rw [if_neg h0, if_neg h0, matchTotal_self, two_mul]
    exact div_self (by exact_mod_cast h0)

/-! ### Two sorted permutations of a list with no relevant ties are equal -/

theorem sorted_perm_eq {α : Type} {r : α → α → Prop} :
    ∀ (l1 l2 : List α), l1.Perm l2 → l1.Pairwise r → l2.Pairwise r →
      (∀ a ∈ l1, ∀ b ∈ l1, r a b → r b a → a = b) → l1 = l2 := by
  intro l1
  induction l1 with
  | nil =>
    intro l2 hp _ _ _
    exact (List.Perm.eq_nil hp.symm).symm
  | cons a t1 ih =>
    intro l2 hp h1 h2 hanti
    cases l2 with
    | nil => exact absurd hp.eq_nil (List.cons_ne_nil a t1)
    | cons b t2 =>
      have hab : a = b := by
        by_contra hne
        have ha2 : a ∈ b :: t2 := hp.mem_iff.1 (List.mem_cons_self a t1)
        have hb1 : b ∈ a :: t1 := hp.mem_iff.2 (List.mem_cons_self b t2)
        have ha2t : a ∈ t2 := by
          rcases List.mem_cons.1 ha2 with h | h
          · exact absurd h hne
          · exact h
        have hb1t : b ∈ t1 := by
          rcases List.mem_cons.1 hb1 with h | h
          · exact absurd h.symm hne
          · exact h
        have hrab : r a b := (List.pairwise_cons.1 h1).1 b hb1t
        have hrba : r b a := (List.pairwise_cons.1 h2).1 a ha2t
        exact hne (hanti a (List.mem_cons_self a t1) b hb1 hrab hrba)
      subst hab
      rw [ih t2 hp.cons_inv (List.pairwise_cons.1 h1).2 (List.pairwise_cons.1 h2).2
        (fun x hx y hy => hanti x (List.mem_cons_of_mem _ hx) y (List.mem_cons_of_mem _ hy))]

/-! ### Facts about `uniqueFirst` -/

theorem mem_uniqueFirstAux :
    ∀ (l : List String) (seen : List String) (v : String),
      v ∈ uniqueFirstAux seen l ↔ v ∈ l ∧ v ∉ seen := by
  intro l
  induction l with
  | nil => intro seen v; simp [uniqueFirstAux]
  | cons x xs ih =>
    intro seen v
    unfold uniqueFirstAux
    split
    · rename_i hx
      rw [ih seen v]
      constructor
      · rintro ⟨h1, h2⟩
        exact ⟨List.mem_cons_of_mem _ h1, h2⟩
      · rintro ⟨h1, h2⟩
        rcases List.mem_cons.1 h1 with rfl | h1
        · exact absurd hx h2
        · exact ⟨h1, h2⟩
    · rename_i hx
      rw [List.mem_cons, ih (x :: seen) v]
      constructor
      · rintro (rfl | ⟨h1, h2⟩)
        · exact ⟨List.mem_cons_self _ _, hx⟩
        · exact ⟨List.mem_cons_of_mem _ h1, fun hv => h2 (List.mem_cons_of_mem _ hv)⟩
      · rintro ⟨h1, h2⟩
        by_cases hvx : v = x
        · exact Or.inl hvx
        · have h1x : v ∈ xs := by
            rcases List.mem_cons.1 h1 with h | h
            · exact absurd h hvx
            · exact h
          refine Or.inr ⟨h1x, ?_⟩
          intro hv
          rcases List.mem_cons.1 hv with h | h
          · exact hvx h
          · exact h2 h

theorem uniqueFirstAux_nodup :
    ∀ (l : List String) (seen : List String), (uniqueFirstAux seen l).Nodup := by
  intro l
  induction l with
  | nil => intro seen; exact List.nodup_nil
  | cons x xs ih =>
    intro seen
    unfold uniqueFirstAux
    split
    · exact ih seen
    · rw [List.nodup_cons]
      refine ⟨?_, ih (x :: seen)⟩
      intro hx
      exact ((mem_uniqueFirstAux xs (x :: seen) x).1 hx).2 (List.mem_cons_self _ _)

theorem mem_uniqueFirst (l : List String) (v : String) : v ∈ uniqueFirst l ↔ v ∈ l := by
  unfold uniqueFirst
  rw [mem_uniqueFirstAux]
  simp

theorem uniqueFirst_nodup (l : List String) : (uniqueFirst l).Nodup :=
  uniqueFirstAux_nodup l []

/-! ### Inverting the date constructor and the insights pipeline -/

theorem mkDate_eq_some {y m d : Nat} {dd : Date} (h : mkDate y m d = some dd) :
    dd = ⟨y, m, d⟩ ∧ 1 ≤ m ∧ m ≤ 12 ∧ 1 ≤ d ∧ d ≤ daysInMonth y m := by
  unfold mkDate at h
  split at h
  · rename_i hc
    exact ⟨(Option.some_inj.1 h).symm, hc⟩
  · cases h

theorem render_inv {reqs : List Req} {sc ec : String} {today : Date} {ins : Insights}
    (h : render_org_insights reqs sc ec today = some ins) :
    ins.statusOptions = facetOptions (reqs.map Req.registration_status)
    ∧ ins.eventOptions = facetOptions (reqs.map Req.event_name)
    ∧ ins.filtered = apply_dropdown_filters reqs sc ec
    ∧ ins.df2025 = ins.filtered.filter (fun r => coercedYear r == some 2025)
    ∧ ins.df2026 = ins.filtered.filter (fun r => coercedYear r == some 2026)
    ∧ ins.cutoff2025 = ⟨2025, today.month, today.day⟩
    ∧ ins.ytd2025 = ins.df2025.filter (ytdPred ins.cutoff2025)
    ∧ ins.ytd2026 = ins.df2026.filter (ytdPred today)
    ∧ ins.yoyDelta = (ins.df2026.length : Int) - (ins.df2025.length : Int)
    ∧ ins.ytdDelta = (ins.ytd2026.length : Int) - (ins.ytd2025.length : Int) := by
  unfold render_org_insights at h
  split at h
  · cases h
  · split at h
    · cases h
    · rename_i cut hm
      have hcut := (mkDate_eq_some hm).1
      subst hcut
      cases Option.some_inj.1 h
      exact ⟨rfl, rfl, rfl, rfl, rfl, rfl, rfl, rfl, rfl, rfl⟩

theorem render_isSome {reqs : List Req} {sc ec : String} {today : Date}
    (hne : reqs ≠ []) (hcut : (mkDate 2025 today.month today.day).isSome) :
    (render_org_insights reqs sc ec today).isSome := by
  unfold render_org_insights
  rw [if_neg (by simpa using hne)]
  rcases hm : mkDate 2025 today.month today.day with _ | cut
  · rw [hm] at hcut; cases hcut
  · simp only [hm]
    rfl

/-! ### The identifier branch returns at most one row -/

theorem filter_id_result (n : Int) :
    ∀ store : List Org, (store.map Org.organization_id).Nodup →
      store.filter (fun o => o.organization_id == n) = []
      ∨ ∃ o, store.filter (fun o => o.organization_id == n) = [o]
          ∧ o ∈ store ∧ o.organization_id = n := by
  intro store
  induction store with
  | nil => intro _; left; rfl
  | cons o rest ih =>
    intro hnd
    rw [List.map_cons, List.nodup_cons] at hnd
    by_cases ho : o.organization_id = n
    · right
      refine ⟨o, ?_, List.mem_cons_self _ _, ho⟩
      rw [List.filter_cons_of_pos (by simpa using ho)]
      have hrest : rest.filter (fun x => x.organization_id == n) = [] := by
        rw [List.filter_eq_nil_iff]
        intro x hx hxn
        apply hnd.1
        rw [beq_iff_eq] at hxn
        rw [ho, ← hxn]
        exact List.mem_map_of_mem _ hx
      rw [hrest]
    · rw [List.filter_cons_of_neg (by simpa using ho)]
      rcases ih hnd.2 with h | ⟨o2, h, hm, hid⟩
      · left; exact h
      · right; exact ⟨o2, h, List.mem_cons_of_mem _ hm, hid⟩

/-! ### Filters commute with the facet filters -/

theorem filter_year_wf (l : List Req) (y : Int) :
    (l.filter (fun x => (coercedYear x).isSome)).filter (fun x => coercedYear x == some y)
      = l.filter (fun x => coercedYear x == some y) := by
  rw [List.filter_comm, List.filter_filter]
  apply List.filter_congr
  intro x _
  cases hc : coercedYear x <;> simp [hc]

theorem apply_filter_comm (l : List Req) (sc ec : String) (p : Req → Bool) :
    apply_dropdown_filters (l.filter p) sc ec = (apply_dropdown_filters l sc ec).filter p := by
  unfold apply_dropdown_filters
  split
  · split
    · rfl
    · exact List.filter_comm _ _ _
  · split
    · exact List.filter_comm _ _ _
    · show List.filter (fun r => r.event_name == some ec)
          (List.filter (fun r => r.registration_status == some sc) (List.filter p l))
        = List.filter p (List.filter (fun r => r.event_name == some ec)
            (List.filter (fun r => r.registration_status == some sc) l))
      rw [List.filter_comm (fun r => r.registration_status == some sc) p l,
        List.filter_comm (fun r => r.event_name == some ec) p
          (List.filter (fun r => r.registration_status == some sc) l)]

theorem apply_all_all (d : List Req) : apply_dropdown_filters d "All" "All" = d := rfl

theorem facetOptions_spec (vals : List (Option String)) :
    ∃ rest : List String,
      facetOptions vals = "All" :: rest
      ∧ rest.Pairwise (fun a b => pyStrLe a b = true)
      ∧ rest.Nodup
      ∧ (∀ v, v ∈ rest ↔ some v ∈ vals ∧ v ≠ "" ∧ v ≠ "nan") := by
  refine ⟨List.insertionSort (fun a b => pyStrLe a b = true)
    ((uniqueFirst (vals.filterMap id)).filter (fun o => !(o == "" || o == "nan"))), rfl, ?_, ?_, ?_⟩
  · exact @List.sorted_insertionSort String (fun a b => pyStrLe a b = true) _
      ⟨pyStrLe_total⟩ ⟨pyStrLe_trans⟩ _
  · rw [(List.perm_insertionSort _ _).nodup_iff]
    exact (uniqueFirst_nodup _).filter _
  · intro v
    rw [(List.perm_insertionSort _ _).mem_iff, List.mem_filter, mem_uniqueFirst,
      List.mem_filterMap]
    constructor
    · rintro ⟨⟨a, ha, rfl⟩, hp⟩
      simp only [Bool.not_eq_eq_eq_not, Bool.not_true, Bool.or_eq_false_iff, beq_eq_false_iff_ne,
        ne_eq] at hp
      exact ⟨ha, hp.1, hp.2⟩
    · rintro ⟨hv, h1, h2⟩
      exact ⟨⟨some v, hv, rfl⟩, by simp [h1, h2]⟩

/-! ### The claims -/

/-- C1: the spec says that when `today` is Feb 29 and the prior comparison
year (2025, never a leap year here) is not a leap year, the prior-year
cutoff must fall back to Feb 28 and the aggregation must complete.  The
code instead evaluates `date(2025, today.month, today.day)`, which raises
for Feb 29, aborting the whole insight computation — while the fallback
date Feb 28 does exist.  The code contradicts the claim: this theorem
evaluates the embedded code at the failing input. -/
theorem c1_feb29_cutoff_aborts :
    isLeapYear 2025 = false
    ∧ mkDate 2025 2 29 = none
    ∧ render_org_insights exampleReqs "All" "All" ⟨2024, 2, 29⟩ = none
    ∧ mkDate 2025 2 28 = some ⟨2025, 2, 28⟩ := by
  refine ⟨rfl, rfl, ?_, rfl⟩
  decide

/-- C2: whenever the insight computation returns, the full-year count for
each comparison year equals the number of filtered requests with that
coerced calendar year (null request dates included), the year-to-date count
counts rows of that partition with a non-null request date at or before
`cutoff(2025) = date(2025, today.month, today.day)` respectively
`cutoff(2026) = today`, and the deltas are the signed differences.  The
end-to-end scenario yields `fullYear 2025 = 2`, `ytd 2025 = 1`,
`fullYear 2026 = 1`, `ytd 2026 = 1`, `yoyDelta = -1`, `ytdDelta = 0`. -/
theorem c2_temporal_aggregation :
    (∀ (reqs : List Req) (sc ec : String) (today : Date) (ins : Insights),
      render_org_insights reqs sc ec today = some ins →
      ins.df2025.length
          = (apply_dropdown_filters reqs sc ec).countP (fun r => coercedYear r == some 2025)
      ∧ ins.df2026.length
          = (apply_dropdown_filters reqs sc ec).countP (fun r => coercedYear r == some 2026)
      ∧ ins.ytd2025.length
          = ((apply_dropdown_filters reqs sc ec).filter
              (fun r => coercedYear r == some 2025)).countP
              (ytdPred ⟨2025, today.month, today.day⟩)
      ∧ ins.ytd2026.length
          = ((apply_dropdown_filters reqs sc ec).filter
              (fun r => coercedYear r == some 2026)).countP (ytdPred today)
      ∧ ins.yoyDelta = (ins.df2026.length : Int) - (ins.df2025.length : Int)
      ∧ ins.ytdDelta = (ins.ytd2026.length : Int) - (ins.ytd2025.length : Int))
    ∧ render_org_insights exampleReqs "All" "All" ⟨2026, 3, 15⟩ = some exampleInsights
    ∧ exampleInsights.df2025.length = 2 ∧ exampleInsights.ytd2025.length = 1
    ∧ exampleInsights.df2026.length = 1 ∧ exampleInsights.ytd2026.length = 1
    ∧ exampleInsights.yoyDelta = -1 ∧ exampleInsights.ytdDelta = 0 := by
  constructor
  · intro reqs sc ec today ins h
    obtain ⟨_, _, hf, h25, h26, hcut, hy25, hy26, hyoy, hytd⟩ := render_inv h
    refine ⟨?_, ?_, ?_, ?_, hyoy, hytd⟩
    · rw [h25, hf, List.countP_eq_length_filter]
    · rw [h26, hf, List.countP_eq_length_filter]
    · rw [hy25, hcut, h25, hf, List.countP_eq_length_filter]
    · rw [hy26, h26, hf, List.countP_eq_length_filter]
  · exact ⟨by decide, rfl, rfl, rfl, rfl, rfl, rfl⟩

/-- Witness for C2: the universal statement applied to the end-to-end
scenario, with its hypothesis discharged by evaluation. -/
theorem c2_temporal_aggregation_witness :
    render_org_insights exampleReqs "All" "All" ⟨2026, 3, 15⟩ = some exampleInsights
    ∧ (exampleInsights.df2025.length
          = (apply_dropdown_filters exampleReqs "All" "All").countP
              (fun r => coercedYear r == some 2025)
      ∧ exampleInsights.df2026.length
          = (apply_dropdown_filters exampleReqs "All" "All").countP
              (fun r => coercedYear r == some 2026)
      ∧ exampleInsights.ytd2025.length
          = ((apply_dropdown_filters exampleReqs "All" "All").filter
              (fun r => coercedYear r == some 2025)).countP (ytdPred ⟨2025, 3, 15⟩)
      ∧ exampleInsights.ytd2026.length
          = ((apply_dropdown_filters exampleReqs "All" "All").filter
              (fun r => coercedYear r == some 2026)).countP (ytdPred ⟨2026, 3, 15⟩)
      ∧ exampleInsights.yoyDelta
          = (exampleInsights.df2026.length : Int) - (exampleInsights.df2025.length : Int)
      ∧ exampleInsights.ytdDelta
          = (exampleInsights.ytd2026.length : Int) - (exampleInsights.ytd2025.length : Int)) :=
  ⟨by decide,
    c2_temporal_aggregation.1 exampleReqs "All" "All" ⟨2026, 3, 15⟩ exampleInsights (by decide)⟩

/-- C3: for a non-empty, non-whitespace, non-integer query, the search
returns the store's substring-match candidates (bounded to 200) ordered by
descending similarity with ties broken by ascending name length; the
similarity is an exact ratio in the interval from 0 to 1 and equals 1 for
strings identical after lowercasing; and on candidates Canes Baseball and
Canes with query Canes, Canes ranks first. -/
theorem c3_fuzzy_ranking :
    (∀ (query : String) (store : List Org),
      trimChars query.data ≠ [] →
      is_int (trimChars query.data) = false →
      (fetch_org_candidates query store).Pairwise (rankRel ⟨trimChars query.data⟩)
      ∧ (fetch_org_candidates query store).Perm
          ((store.filter (fun o => nameMatches (trimChars query.data) o)).take 200))
    ∧ (∀ x y : String, 0 ≤ similarity x y ∧ similarity x y ≤ 1)
    ∧ (∀ x y : String, lowerChars x = lowerChars y → similarity x y = 1)
    ∧ fetch_org_candidates "Canes" canesStore = [canesOrg, canesBB] := by
  refine ⟨?_, fun x y => ⟨similarity_nonneg x y, similarity_le_one x y⟩,
    fun x y h => similarity_of_lower_eq h, by decide⟩
  intro query store hne hint
  have hfe : fetch_org_candidates query store
      = rankCandidates ⟨trimChars query.data⟩
          ((store.filter (fun o => nameMatches (trimChars query.data) o)).take 200) := by
    unfold fetch_org_candidates
    rw [if_neg (by simpa using hne), if_neg (by simp [hint])]
  rw [hfe]
  exact ⟨rankCandidates_pairwise _ _, rankCandidates_perm _ _⟩

/-- Witness for C3: the ranking statement applied to the Canes store. -/
theorem c3_fuzzy_ranking_witness :
    (fetch_org_candidates "Canes" canesStore).Pairwise (rankRel ⟨trimChars "Canes".data⟩)
    ∧ (fetch_org_candidates "Canes" canesStore).Perm
        ((canesStore.filter (fun o => nameMatches (trimChars "Canes".data) o)).take 200) :=
  c3_fuzzy_ranking.1 "Canes" canesStore (by decide) (by decide)

/-- C4: a query that parses entirely as an integer takes the
exact-identifier branch: the result is the plain store filter on the
identifier (no similarity ranking), and with unique identifiers it is
either empty or exactly one row whose identifier equals the parsed query.
The code attaches no numeric score to results; the score-1.0 clause of the
claim is read as this exact-identifier match. -/
theorem c4_numeric_exact_lookup :
    ∀ (query : String) (store : List Org),
      is_int (trimChars query.data) = true →
      (store.map Org.organization_id).Nodup →
      fetch_org_candidates query store
          = store.filter (fun o => o.organization_id == (pyInt (trimChars query.data)).getD 0)
      ∧ (fetch_org_candidates query store = []
         ∨ ∃ o, fetch_org_candidates query store = [o]
             ∧ o ∈ store ∧ pyInt (trimChars query.data) = some o.organization_id) := by
  intro query store hint hnd
  have hq : ¬(trimChars query.data).isEmpty = true := by
    intro h
    rw [List.isEmpty_iff] at h
    rw [h] at hint
    exact absurd hint (by decide)
  have hfetch : fetch_org_candidates query store
      = store.filter (fun o => o.organization_id == (pyInt (trimChars query.data)).getD 0) := by
    unfold fetch_org_candidates
    rw [if_neg hq, if_pos hint]
  refine ⟨hfetch, ?_⟩
  rcases filter_id_result ((pyInt (trimChars query.data)).getD 0) store hnd
    with h | ⟨o, h, hm, hid⟩
  · left
    rw [hfetch]
    exact h
  · right
    refine ⟨o, by rw [hfetch]; exact h, hm, ?_⟩
    rcases hv : pyInt (trimChars query.data) with _ | v
    · rw [is_int, hv] at hint
      exact absurd hint (by decide)
    · rw [hv, Option.getD_some] at hid
      rw [hid]

/-- Witness for C4: the identifier lookup applied to a two-row store. -/
theorem c4_numeric_exact_lookup_witness :
    fetch_org_candidates " 78598 " idStore
        = idStore.filter (fun o => o.organization_id == (pyInt (trimChars " 78598 ".data)).getD 0)
    ∧ (fetch_org_candidates " 78598 " idStore = []
       ∨ ∃ o, fetch_org_candidates " 78598 " idStore = [o]
           ∧ o ∈ idStore ∧ pyInt (trimChars " 78598 ".data) = some o.organization_id) :=
  c4_numeric_exact_lookup " 78598 " idStore (by decide) (by decide)

/-- C5: an empty or whitespace-only query returns the empty sequence
without an error. -/
theorem c5_empty_query :
    ∀ (query : String) (store : List Org),
      trimChars query.data = [] → fetch_org_candidates query store = [] := by
  intro query store h
  unfold fetch_org_candidates
  rw [if_pos (by simpa using h)]

/-- Witness for C5: the empty and the all-blank query both yield no
results. -/
theorem c5_empty_query_witness :
    fetch_org_candidates "" idStore = [] ∧ fetch_org_candidates "   " idStore = [] :=
  ⟨c5_empty_query "" idStore (by decide), c5_empty_query "   " idStore (by decide)⟩

/-- C6: for a positive page size and any requested page (negative or past
the end included), pagination computes the total page count as the ceiling
of length over page size (at least one), clamps the page index below the
total instead of erroring, and returns exactly the claimed slice; 23 items
with page size 10 and request 5 clamp to page index 2 of 3 and yield the
last three items. -/
theorem c6_pagination :
    ∀ {α : Type} (items : List α) (pageSize : Nat) (requested : Int),
      0 < pageSize →
      (paginate items pageSize requested).totalPages = max 1 (items.length ⌈/⌉ pageSize)
      ∧ (paginate items pageSize requested).pageIndex
          < (paginate items pageSize requested).totalPages
      ∧ (paginate items pageSize requested).pageIndex
          = (max 0 (min requested
              (((paginate items pageSize requested).totalPages : Int) - 1))).toNat
      ∧ (paginate items pageSize requested).page
          = (items.drop ((paginate items pageSize requested).pageIndex * pageSize)).take
              (min items.length (((paginate items pageSize requested).pageIndex + 1) * pageSize)
                - (paginate items pageSize requested).pageIndex * pageSize)
      ∧ (paginate items pageSize requested).startOffset
          = (paginate items pageSize requested).pageIndex * pageSize
      ∧ (paginate items pageSize requested).endOffset
          = min items.length (((paginate items pageSize requested).pageIndex + 1) * pageSize) := by
  intro α items pageSize requested hps
  refine ⟨rfl, ?_, rfl, ?_, rfl, ?_⟩
  · show (max 0 (min requested
        (((max 1 ((items.length + pageSize - 1) / pageSize) : Nat) : Int) - 1))).toNat
      < max 1 ((items.length + pageSize - 1) / pageSize)
    omega
  · have h : min items.length (((paginate items pageSize requested).pageIndex + 1) * pageSize)
        = min ((paginate items pageSize requested).pageIndex * pageSize + pageSize)
            items.length := by
      rw [add_one_mul]
      exact Nat.min_comm _ _
    rw [h]
    rfl
  · rw [add_one_mul]
    exact Nat.min_comm _ _

/-- Witness for C6: the 23-item scenario, page size 10, requested page 5. -/
theorem c6_pagination_witness :
    (0 : Nat) < 10
    ∧ paginate ((List.range 23).map (fun n => n + 1)) 10 5 = ⟨[21, 22, 23], 2, 3, 20, 23⟩
    ∧ (paginate ((List.range 23).map (fun n => n + 1)) 10 5).totalPages
        = max 1 (((List.range 23).map (fun n => n + 1)).length ⌈/⌉ 10) :=
  ⟨by decide, by decide,
    (c6_pagination ((List.range 23).map (fun n => n + 1)) 10 5 (by decide)).1⟩

/-- C7 counterexample: the claim says the option list holds every distinct
non-null, non-empty value; but the code also drops the literal string nan,
so a request whose status is the string nan yields the option list with
just the wildcard, while the list built from the words of the spec keeps
the nan entry. -/
theorem c7_facet_nan_counterexample :
    (render_org_insights [reqStatusNan] "All" "All" ⟨2026, 3, 15⟩).map Insights.statusOptions
        = some ["All"]
    ∧ specFacetOptions ([reqStatusNan].map Req.registration_status) = ["All", "nan"]
    ∧ (["All"] : List String) ≠ ["All", "nan"]
    ∧ reqStatusNan.registration_status = some "nan" := by
  refine ⟨?_, ?_, by decide, rfl⟩
  · decide
  · decide

/-- C7 amended: the facet option lists are computed from the unfiltered
request set and consist of the wildcard followed by the distinct non-null,
non-empty values of the field that are not the literal string nan, sorted
ascending. -/
theorem c7_facet_options_amended :
    ∀ (reqs : List Req) (sc ec : String) (today : Date) (ins : Insights),
      render_org_insights reqs sc ec today = some ins →
      (∃ rest : List String,
        ins.statusOptions = "All" :: rest
        ∧ rest.Pairwise (fun a b => pyStrLe a b = true)
        ∧ rest.Nodup
        ∧ (∀ v, v ∈ rest ↔ some v ∈ reqs.map Req.registration_status ∧ v ≠ "" ∧ v ≠ "nan"))
      ∧ (∃ rest : List String,
        ins.eventOptions = "All" :: rest
        ∧ rest.Pairwise (fun a b => pyStrLe a b = true)
        ∧ rest.Nodup
        ∧ (∀ v, v ∈ rest ↔ some v ∈ reqs.map Req.event_name ∧ v ≠ "" ∧ v ≠ "nan")) := by
  intro reqs sc ec today ins h
  obtain ⟨hso, heo, _⟩ := render_inv h
  constructor
  · obtain ⟨rest, h1, h2, h3, h4⟩ := facetOptions_spec (reqs.map Req.registration_status)
    exact ⟨rest, hso.trans h1, h2, h3, h4⟩
  · obtain ⟨rest, h1, h2, h3, h4⟩ := facetOptions_spec (reqs.map Req.event_name)
    exact ⟨rest, heo.trans h1, h2, h3, h4⟩

/-- Witness for C7: the amended statement applied to the one-request batch
whose status is the literal string nan. -/
theorem c7_facet_options_amended_witness :
    (∃ rest : List String,
      nanInsights.statusOptions = "All" :: rest
      ∧ rest.Pairwise (fun a b => pyStrLe a b = true)
      ∧ rest.Nodup
      ∧ (∀ v, v ∈ rest ↔
          some v ∈ [reqStatusNan].map Req.registration_status ∧ v ≠ "" ∧ v ≠ "nan"))
    ∧ (∃ rest : List String,
      nanInsights.eventOptions = "All" :: rest
      ∧ rest.Pairwise (fun a b => pyStrLe a b = true)
      ∧ rest.Nodup
      ∧ (∀ v, v ∈ rest ↔ some v ∈ [reqStatusNan].map Req.event_name ∧ v ≠ "" ∧ v ≠ "nan")) :=
  c7_facet_options_amended [reqStatusNan] "All" "All" ⟨2026, 3, 15⟩ nanInsights (by decide)

/-- C8: a request whose calendar-year field fails numeric coercion gets the
missing sentinel rather than aborting the batch, is excluded from both year
partitions and both year-to-date subsets, is retained in the filtered All
view, and the year partitions are exactly what they would be had the
malformed row been dropped before the pipeline ran. -/
theorem c8_malformed_year :
    ∀ (reqs : List Req) (sc ec : String) (today : Date) (r : Req) (s : String),
      r ∈ reqs → r.start_date_calendar_year = some s → pyInt (trimChars s.data) = none →
      reqs ≠ [] → (mkDate 2025 today.month today.day).isSome = true →
      coercedYear r = none
      ∧ ∃ ins, render_org_insights reqs sc ec today = some ins
        ∧ r ∉ ins.df2025 ∧ r ∉ ins.df2026 ∧ r ∉ ins.ytd2025 ∧ r ∉ ins.ytd2026
        ∧ (sc = "All" → ec = "All" → r ∈ ins.filtered)
        ∧ ins.df2025 = (apply_dropdown_filters
            (reqs.filter (fun x => (coercedYear x).isSome)) sc ec).filter
              (fun x => coercedYear x == some 2025)
        ∧ ins.df2026 = (apply_dropdown_filters
            (reqs.filter (fun x => (coercedYear x).isSome)) sc ec).filter
              (fun x => coercedYear x == some 2026) := by
  intro reqs sc ec today r s hr hs hbad hne hcut
  have hnone : coercedYear r = none := by
    unfold coercedYear
    rw [hs]
    exact hbad
  refine ⟨hnone, ?_⟩
  obtain ⟨ins, hins⟩ := Option.isSome_iff_exists.1 (render_isSome hne hcut)
  obtain ⟨_, _, hf, h25, h26, _, hy25, hy26, _, _⟩ := render_inv hins
  have hn25 : r ∉ ins.df2025 := by
    rw [h25]
    intro hmem
    have h := (List.mem_filter.1 hmem).2
    simp [hnone] at h
  have hn26 : r ∉ ins.df2026 := by
    rw [h26]
    intro hmem
    have h := (List.mem_filter.1 hmem).2
    simp [hnone] at h
  refine ⟨ins, hins, hn25, hn26, ?_, ?_, ?_, ?_, ?_⟩
  · rw [hy25]
    intro hmem
    exact hn25 (List.mem_filter.1 hmem).1
  · rw [hy26]
    intro hmem
    exact hn26 (List.mem_filter.1 hmem).1
  · intro hsc hec
    subst hsc
    subst hec
    rw [hf, apply_all_all]
    exact hr
  · rw [h25, hf, apply_filter_comm, filter_year_wf]
  · rw [h26, hf, apply_filter_comm, filter_year_wf]

/-- Witness for C8: a two-row batch whose second row has the unparseable
year field 20x5. -/
theorem c8_malformed_year_witness :
    coercedYear reqBadYear = none
    ∧ ∃ ins, render_org_insights [reqA, reqBadYear] "All" "All" ⟨2026, 3, 15⟩ = some ins
      ∧ reqBadYear ∉ ins.df2025 ∧ reqBadYear ∉ ins.df2026
      ∧ reqBadYear ∉ ins.ytd2025 ∧ reqBadYear ∉ ins.ytd2026
      ∧ ("All" = "All" → "All" = "All" → reqBadYear ∈ ins.filtered)
      ∧ ins.df2025 = (apply_dropdown_filters
          ([reqA, reqBadYear].filter (fun x => (coercedYear x).isSome)) "All" "All").filter
            (fun x => coercedYear x == some 2025)
      ∧ ins.df2026 = (apply_dropdown_filters
          ([reqA, reqBadYear].filter (fun x => (coercedYear x).isSome)) "All" "All").filter
            (fun x => coercedYear x == some 2026) :=
  c8_malformed_year [reqA, reqBadYear] "All" "All" ⟨2026, 3, 15⟩ reqBadYear "20x5"
    (by decide) rfl (by decide) (by decide) (by decide)

/-- C9 counterexample: two distinct candidates with identical names tie on
both ranking keys, and the stable sort then preserves store order, so
permuting the store-returned candidates changes the ranked output.  The
claim that permuting never changes the output is false. -/
theorem c9_order_dependence_counterexample :
    ([dupA, dupB] : List Org).Perm [dupB, dupA]
    ∧ rankCandidates "Canes" [dupA, dupB] ≠ rankCandidates "Canes" [dupB, dupA] := by
  constructor
  · decide
  · decide

/-- C9 amended: the ranking is a pure function of its inputs, and permuting
the store-returned order never changes the ranked output provided no two
candidates share both ranking keys (similarity and name length); with tied
keys the stable sort keeps store order. -/
theorem c9_order_invariance_amended :
    ∀ (q : String) (l1 l2 : List Org),
      l1.Perm l2 →
      (∀ a ∈ l1, ∀ b ∈ l1, simKey q a = simKey q b → a = b) →
      rankCandidates q l1 = rankCandidates q l2 := by
  intro q l1 l2 hp hinj
  have hperm : (rankCandidates q l1).Perm (rankCandidates q l2) :=
    (rankCandidates_perm q l1).trans (hp.trans (rankCandidates_perm q l2).symm)
  apply @sorted_perm_eq Org (rankRel q) _ _ hperm (rankCandidates_pairwise q l1)
    (rankCandidates_pairwise q l2)
  intro a ha b hb hab hba
  have ha1 : a ∈ l1 := (rankCandidates_perm q l1).mem_iff.1 ha
  have hb1 : b ∈ l1 := (rankCandidates_perm q l1).mem_iff.1 hb
  apply hinj a ha1 b hb1
  unfold simKey
  unfold rankRel at hab hba
  rcases hab with h1 | ⟨he1, hl1⟩ <;> rcases hba with h2 | ⟨he2, hl2⟩
  · exact absurd h2 (lt_asymm h1)
  · rw [he2] at h1
    exact absurd h1 (lt_irrefl _)
  · rw [he1] at h2
    exact absurd h2 (lt_irrefl _)
  · rw [he1, Nat.le_antisymm hl1 hl2]

/-- Witness for C9: on the Canes store, whose two candidates have distinct
ranking keys, both store orders rank identically. -/
theorem c9_order_invariance_amended_witness :
    ([canesBB, canesOrg] : List Org).Perm [canesOrg, canesBB]
    ∧ rankCandidates "Canes" [canesBB, canesOrg] = rankCandidates "Canes" [canesOrg, canesBB] := by
  refine ⟨by decide, c9_order_invariance_amended "Canes" [canesBB, canesOrg] [canesOrg, canesBB]
    (by decide) ?_⟩
  intro a ha b hb hk
  have hmem : ∀ x, x ∈ ([canesBB, canesOrg] : List Org) → x = canesBB ∨ x = canesOrg := by
    intro x hx
    rcases List.mem_cons.1 hx with rfl | hx
    · exact Or.inl rfl
    · exact Or.inr (List.mem_singleton.1 hx)
  rcases hmem a ha with rfl | rfl <;> rcases hmem b hb with rfl | rfl <;>
    first
      | rfl
      | exact absurd (congrArg Prod.snd hk) (by decide)

/-- C10: the wildcard shadows the literal string All as a facet value: the
option builder unconditionally prepends All (duplicating it when present
as a value), choosing All on both facets returns the whole input, and a
request whose status or event name is literally All is excluded from every
non-wildcard selection, so it can never be isolated by filtering. -/
theorem c10_all_shadowing :
    (∀ opts : List String, (with_all opts).count "All" = opts.count "All" + 1)
    ∧ (∀ d : List Req, apply_dropdown_filters d "All" "All" = d)
    ∧ (∀ (d : List Req) (sc ec : String) (r : Req), sc ≠ "All" →
        r.registration_status = some "All" → r ∉ apply_dropdown_filters d sc ec)
    ∧ (∀ (d : List Req) (sc ec : String) (r : Req), ec ≠ "All" →
        r.event_name = some "All" → r ∉ apply_dropdown_filters d sc ec) := by
  refine ⟨?_, apply_all_all, ?_, ?_⟩
  · intro opts
    unfold with_all
    rw [List.count_cons_self, (List.perm_insertionSort _ _).count_eq "All",
      List.count_filter (by decide)]
  · intro d sc ec r hsc hst hmem
    simp only [apply_dropdown_filters, if_neg hsc] at hmem
    have hx : r ∈ d.filter (fun x => x.registration_status == some sc) := by
      by_cases hec2 : ec = "All"
      · rw [if_pos hec2] at hmem
        exact hmem
      · rw [if_neg hec2] at hmem
        exact (List.mem_filter.1 hmem).1
    have h := (List.mem_filter.1 hx).2
    simp only [hst, beq_iff_eq, Option.some.injEq] at h
    exact hsc h.symm
  · intro d sc ec r hec hev hmem
    simp only [apply_dropdown_filters, if_neg hec] at hmem
    have h := (List.mem_filter.1 hmem).2
    simp only [hev, beq_iff_eq, Option.some.injEq] at h
    exact hec h.symm

/-- Witness for C10: the duplicated wildcard entry, the identity of the
all-wildcard selection, and the impossibility of isolating a request whose
facet values are literally All. -/
theorem c10_all_shadowing_witness :
    (with_all ["All", "pending"]).count "All" = 2
    ∧ apply_dropdown_filters [reqStatusAll] "All" "All" = [reqStatusAll]
    ∧ reqStatusAll ∉ apply_dropdown_filters [reqStatusAll] "pending" "All"
    ∧ reqStatusAll ∉ apply_dropdown_filters [reqStatusAll] "All" "Open House" :=
  ⟨(c10_all_shadowing.1 ["All", "pending"]).trans (by decide),
   c10_all_shadowing.2.1 [reqStatusAll],
   c10_all_shadowing.2.2.1 [reqStatusAll] "pending" "All" reqStatusAll (by decide) rfl,
   c10_all_shadowing.2.2.2 [reqStatusAll] "All" "Open House" reqStatusAll (by decide) rfl⟩

end OrgDash
